import Mathlib

/-!
Shallow embedding of the "Capturing Radiance" detector / forecast code
(`data_loader.py`, `eda_analysis.py`, `model_training.py`, `predict_console.py`).

A wish log is a `List PullRow` assumed sorted ascending by `timestamp`
(the scripts apply `sort_values('timestamp')`; on input already in
chronological order — the contract the spec states — this is the identity,
so the embedded scans consume the list order directly).
-/

/-- One normalized wish-log record (a row of the cleaned data frame).
`within_pity` is the raw `within pity` column read by `predict_console.py`;
`pull_number` is the `pull_number` column used for features and costs. -/
structure PullRow where
  timestamp : Nat
  name : String
  rarity : Nat
  pull_number : Nat
  within_pity : Nat
  remark : String
deriving DecidableEq

/-- `NON_UP_CHARS` from `data_loader.py` / `model_training.py`. -/
def NON_UP_CHARS : List String :=
  ["Diluc", "Dehya", "Tighnari", "Yumemizuki mizuki", "Mona", "Jean", "Keqing", "Qiqi"]

/-- `df['is_not_up'] = (df['rarity'] == 5) & df['name'].isin(NON_UP_CHARS)`. -/
def is_not_up (p : PullRow) : Bool :=
  (p.rarity == 5) && NON_UP_CHARS.contains p.name

/-- `df['is_up'] = (df['rarity'] == 5) & (~df['name'].isin(NON_UP_CHARS))`. -/
def is_up (p : PullRow) : Bool :=
  (p.rarity == 5) && !(NON_UP_CHARS.contains p.name)

/-- Character-list lowercasing; models the `case=False` option of the
pandas `str.contains` calls (non-ASCII characters are unaffected). -/
def lowerChars (s : String) : List Char :=
  s.data.map Char.toLower

/-- `leadsWith n h` : `n` is an initial segment of `h`. -/
def leadsWith : List Char → List Char → Bool
  | [], _ => true
  | _ :: _, [] => false
  | a :: as, b :: bs => a == b && leadsWith as bs

/-- `hasSub n h` : `n` occurs contiguously inside `h`. -/
def hasSub (n : List Char) : List Char → Bool
  | [] => n.isEmpty
  | b :: bs => leadsWith n (b :: bs) || hasSub n bs

/-- The detector remark rule: `str.contains(r'capturing radiance|捕获明光',
case=False, regex=True)` on the (NaN-filled) remark column. -/
def remark_match (r : String) : Bool :=
  hasSub "capturing radiance".data (lowerChars r) ||
  hasSub "捕获明光".data (lowerChars r)

/-- Detector scan state: the `cycle_count` and `waiting_not_up` variables of
the loops in `eda_analysis.run_eda` and `model_training.main`. -/
structure ScanState where
  cycle_count : Nat
  waiting_not_up : Bool
deriving DecidableEq

/-- One iteration of the detector loop body on a rarity-5 row: the new state,
and whether this row is appended to `radiance_idxs` (an increment that lands
on `cycle_count % 4 == 0`). -/
def cycleStep (s : ScanState) (p : PullRow) : ScanState × Bool :=
  if is_not_up p then ({ s with waiting_not_up := true }, false)
  else if is_up p && s.waiting_not_up then
    (⟨s.cycle_count + 1, false⟩, (s.cycle_count + 1) % 4 == 0)
  else (s, false)

/-- Run the detector loop from state `s` over a rarity-5 list. -/
def scanFrom (s : ScanState) : List PullRow → ScanState
  | [] => s
  | p :: l => scanFrom (cycleStep s p).1 l

/-- Per-row cycle-trigger flags of the detector loop, from state `s`. -/
def cycleFlagsFrom (s : ScanState) : List PullRow → List Bool
  | [] => []
  | p :: l => (cycleStep s p).2 :: cycleFlagsFrom (cycleStep s p).1 l

/-- The loop starts with `cycle_count = 0`, `waiting_not_up = False`. -/
def initState : ScanState := ⟨0, false⟩

/-- Cycle-trigger flags over an ordered rarity-5 pull list. -/
def cycleFlags (l : List PullRow) : List Bool :=
  cycleFlagsFrom initState l

/-- Scan state right before row `i` is visited. -/
def scanStateAt (l : List PullRow) (i : Nat) : ScanState :=
  scanFrom initState (l.take i)

/-- The cycle index that row `i` would complete (`cycle_count + 1`). -/
def cycleIndexAt (l : List PullRow) (i : Nat) : Nat :=
  (scanStateAt l i).cycle_count + 1

/-- `failsafe_cycle` over the whole frame: the loop only visits rarity-5 rows
(`df5 = df[df['rarity'] == 5]`), every other row keeps flag 0. -/
def failsafeFrom (s : ScanState) : List PullRow → List Bool
  | [] => []
  | p :: l =>
    if p.rarity == 5 then (cycleStep s p).2 :: failsafeFrom (cycleStep s p).1 l
    else false :: failsafeFrom s l

/-- `df['failsafe_cycle'] = df.index.isin(radiance_idxs)` as a per-row list. -/
def failsafe_cycle (df : List PullRow) : List Bool :=
  failsafeFrom initState df

/-- `is_fate_capture` over the whole frame: the remark rule is set first for
every row, then the cycle rows are OR-ed in (`df.loc[radiance_idxs, ...] = True`). -/
def captureFrom (s : ScanState) : List PullRow → List Bool
  | [] => []
  | p :: l =>
    if p.rarity == 5 then
      (remark_match p.remark || (cycleStep s p).2) :: captureFrom (cycleStep s p).1 l
    else
      remark_match p.remark :: captureFrom s l

/-- Combined `is_fate_capture` column of `eda_analysis` / `model_training`. -/
def is_fate_capture (df : List PullRow) : List Bool :=
  captureFrom initState df

/-- `df5 = df[df['rarity'] == 5]` (already chronological, see module header). -/
def five_star (df : List PullRow) : List PullRow :=
  df.filter (fun p => p.rarity == 5)

/-- The remark check of `predict_console.main` step 4:
`str.contains('capture radiance', case=False)`. Note the phrase differs from
the detector markers (`capturing radiance` / `捕获明光`). -/
def fc_mask (p : PullRow) : Bool :=
  hasSub "capture radiance".data (lowerChars p.remark)

/-- `df5[rad_mask].index.max()` : largest index whose remark matches, if any. -/
def lastRadAux (i : Nat) : List PullRow → Option Nat
  | [] => none
  | p :: l =>
    match lastRadAux (i + 1) l with
    | some j => some j
    | none => if fc_mask p then some i else none

/-- Index of the last Radiance event found by remark, as in step 4. -/
def lastRad (l : List PullRow) : Option Nat :=
  lastRadAux 0 l

/-- Step 6 of `predict_console.main`: count of leading rows of `recent` whose
`name` differs from `up_name` (the loop breaks at the first match). -/
def consec_non_up (up : String) : List PullRow → Nat
  | [] => 0
  | p :: l => if p.name != up then consec_non_up up l + 1 else 0

/-- The base override chance `0.00018` (0.018%). -/
def base_chance : ℚ := 18 / 100000

/-- Failure outcomes of the embedded `predict_console.main`.
`indexError` is the Python `IndexError` that `.iloc[-1]` raises on an empty
frame. `noFiveStarData` is modelled from the spec: the distinct "no data"
outcome §7 requires; the code never produces it. -/
inductive ForecastError where
  | indexError
  | noFiveStarData
deriving DecidableEq

/-- The forecast printed by `predict_console.main` (steps 4–9), as a record.
`fallback` records whether the no-event branch ran (the branch that prints
"No previous Radiance event found in remarks." and assumes the most recent
5★ pull's character). -/
structure ForecastResult where
  up_name : String
  fallback : Bool
  consec : Nat
  radiance_chance : ℚ
  guaranteed : Bool
  current_pity : Nat
  pulls_to_next5 : ℤ
  gems_needed : ℤ
deriving DecidableEq

/-- Step 4 of `predict_console.main`: pick the active UP character, whether the
fallback branch ran, and the `recent` slice (`df5.iloc[last_rad_pos+1:]`;
the fallback sets `last_rad_pos = -1`, so `recent` is all of `df5`). -/
def pickUp (d5 : List PullRow) : Except ForecastError (String × Bool × List PullRow) :=
  match lastRad d5 with
  | none =>
    match d5.getLast? with
    | none => .error .indexError
    | some lastP => .ok (lastP.name, true, d5)
  | some i =>
    match d5.get? i with
    | none => .error .indexError
    | some evP => .ok (evP.name, false, d5.drop (i + 1))

/-- Steps 6–9 of `predict_console.main`: streak count, probability policy,
pity and resource projection from the last row of the full frame. -/
def finishForecast (df : List PullRow) (up : String) (fb : Bool)
    (recent : List PullRow) : Except ForecastError ForecastResult :=
  match df.getLast? with
  | none => .error .indexError
  | some lastRow =>
    .ok ⟨up, fb, consec_non_up up recent,
         if 3 ≤ consec_non_up up recent then (1 : ℚ) else base_chance,
         if 3 ≤ consec_non_up up recent then true else false,
         lastRow.within_pity,
         max (90 - (lastRow.within_pity : ℤ)) 0,
         max (90 - (lastRow.within_pity : ℤ)) 0 * 160⟩

/-- The whole forecast pipeline of `predict_console.main` on a loaded frame. -/
def forecastMain (df : List PullRow) : Except ForecastError ForecastResult :=
  match pickUp (five_star df) with
  | .error e => .error e
  | .ok (up, fb, recent) => finishForecast df up fb recent

/-- Step 5 of `model_training.main`: one feature row
`[pull_number, is_not_up, failsafe_cycle]` with the two targets
`is_fate_capture` and `primogem_cost = pull_number * 160`. -/
def featureRow (p : PullRow) (cyc cap : Bool) : List Nat × Nat × Nat :=
  ([p.pull_number, (is_not_up p).toNat, cyc.toNat], cap.toNat, p.pull_number * 160)

/-- The feature/target table `X, y_cls, y_reg` of `model_training.main`. -/
def buildFeatures (df : List PullRow) : List (List Nat × Nat × Nat) :=
  (df.zip ((failsafe_cycle df).zip (is_fate_capture df))).map
    (fun t => featureRow t.1 t.2.1 t.2.2)

/-- A standard ("non-UP") rarity-5 row with empty remark. -/
def stdRow : PullRow := ⟨0, "Diluc", 5, 10, 10, ""⟩

/-- A featured ("UP") rarity-5 row with empty remark. -/
def upRow : PullRow := ⟨0, "Furina", 5, 20, 20, ""⟩

/-- Scenario A of the spec: eight alternating standard / featured 5★ pulls. -/
def scenarioA : List PullRow :=
  [stdRow, upRow, stdRow, upRow, stdRow, upRow, stdRow, upRow]

/-- Scenario B row: matching annotation in mixed case on a standard pull. -/
def bRow : PullRow := ⟨0, "Diluc", 5, 1, 1, "CaPtUrInG rAdIaNcE guaranteed"⟩

/-- Scenario B: a single pull flagged through the remark rule alone. -/
def scenarioB : List PullRow := [bRow]

/-- A Radiance event row recognised by `predict_console`'s remark check. -/
def evRow (pity : Nat) : PullRow := ⟨0, "Furina", 5, 30, pity, "Capture Radiance!"⟩

/-- A non-featured 5★ row following an event. -/
def dRow (k : Nat) : PullRow := ⟨k, "Diluc", 5, 40 + k, 40 + k, ""⟩

/-- Scenario D: event followed by exactly 3 consecutive non-featured pulls. -/
def scenarioD : List PullRow := [evRow 30, dRow 1, dRow 2, dRow 3]

/-- Scenario E: event followed by exactly 2 consecutive non-featured pulls. -/
def scenarioE : List PullRow := [evRow 30, dRow 1, dRow 2]

/-- Boundary scenario: current pity equals the pity ceiling 90. -/
def scenarioF : List PullRow := [⟨0, "Furina", 5, 30, 90, "capture radiance"⟩]

/-- Expected forecast for Scenario D. -/
def rD : ForecastResult := ⟨"Furina", false, 3, 1, true, 43, 47, 7520⟩

/-- Expected forecast for Scenario E. -/
def rE : ForecastResult := ⟨"Furina", false, 2, base_chance, false, 42, 48, 7680⟩

/-- Expected forecast for the pity-boundary scenario. -/
def rF : ForecastResult := ⟨"Furina", false, 0, base_chance, false, 90, 0, 0⟩

/-- A pull carrying the detector marker `capturing radiance` in its remark,
which the forecast console's `capture radiance` check does not match. -/
def cex3 : List PullRow := [⟨0, "Furina", 5, 80, 80, "capturing radiance"⟩]

/-- A log with no rarity-5 rows at all. -/
def cex5 : List PullRow := [⟨0, "Harbinger of Dawn", 3, 1, 1, ""⟩]

/-- A rarity-3 record whose remark matches the detector marker. -/
def cex10Row : PullRow := ⟨0, "Harbinger of Dawn", 3, 5, 5, "got Capturing RADIANCE somehow"⟩

/-- A log containing only the rarity-3 matching record. -/
def cex10 : List PullRow := [cex10Row]

/-! ### Flag and scan-step lemmas -/

theorem not_up_up_false (p : PullRow) (h : is_not_up p = true) : is_up p = false := by
  have h' : (p.rarity == 5) = true ∧ NON_UP_CHARS.contains p.name = true := by
    simpa [is_not_up] using h
  simp only [is_up, h'.1, Bool.true_and, Bool.not_eq_true']
  simpa using h'.2

theorem cycleStep_flag (s : ScanState) (p : PullRow) :
    (cycleStep s p).2 = true ↔
      is_up p = true ∧ s.waiting_not_up = true ∧ (s.cycle_count + 1) % 4 = 0 := by
  unfold cycleStep
  cases hn : is_not_up p with
  | true =>
    have hu := not_up_up_false p hn
    simp [hu]
  | false =>
    cases hu : is_up p with
    | false => simp [hn, hu]
    | true =>
      cases hw : s.waiting_not_up with
      | false => simp [hn, hu, hw]
      | true => simp [hn, hu, hw]

theorem cycleStep_count (s : ScanState) (p : PullRow) :
    (cycleStep s p).1.cycle_count =
      s.cycle_count + (if is_up p && s.waiting_not_up then 1 else 0) := by
  unfold cycleStep
  cases hn : is_not_up p with
  | true =>
    have hu := not_up_up_false p hn
    simp [hu]
  | false =>
    cases hu : is_up p with
    | false => simp [hn, hu]
    | true =>
      cases hw : s.waiting_not_up with
      | false => simp [hn, hu, hw]
      | true => simp [hn, hu, hw]

theorem scanFrom_append (s : ScanState) (l1 l2 : List PullRow) :
    scanFrom s (l1 ++ l2) = scanFrom (scanFrom s l1) l2 := by
  induction l1 generalizing s with
  | nil => rfl
  | cons p t ih => simp only [List.cons_append, scanFrom]; exact ih _

theorem scanFrom_no_up (l : List PullRow) :
    ∀ s : ScanState, (∀ q ∈ l, is_up q = false) →
      (scanFrom s l).cycle_count = s.cycle_count := by
  induction l with
  | nil => intro s _; rfl
  | cons p t ih =>
    intro s h
    have hp : is_up p = false := h p (List.mem_cons_self p t)
    have ht : ∀ q ∈ t, is_up q = false := fun q hq => h q (List.mem_cons_of_mem p hq)
    rw [scanFrom, ih _ ht, cycleStep_count, hp]
    simp

theorem cycleFlagsFrom_get (l : List PullRow) :
    ∀ (s : ScanState) (i : Nat),
      (cycleFlagsFrom s l).get? i =
        (l.get? i).map (fun p => (cycleStep (scanFrom s (l.take i)) p).2) := by
  induction l with
  | nil => intro s i; simp [cycleFlagsFrom]
  | cons q t ih =>
    intro s i
    cases i with
    | zero => simp [cycleFlagsFrom, scanFrom]
    | succ n =>
      simp only [cycleFlagsFrom, List.get?_cons_succ, List.take_succ_cons, scanFrom]
      exact ih (cycleStep s q).1 n

/-- C1: for every chronologically ordered rarity-5 list the detector scan flags
row `i` cycle-triggered iff it is a featured pull seen while the waiting flag
is set and the completed cycle index (`cycle_count + 1`) is a positive multiple
of 4; a standard pull only sets the waiting flag; on the alternating 8-pull
Scenario A the counter reaches 4 and only the 8th pull is flagged. -/
theorem C1_cycle_rule :
    (∀ (l : List PullRow) (i : Nat),
        (cycleFlags l).get? i = some true ↔
          ∃ p, l.get? i = some p ∧ is_up p = true ∧
            (scanStateAt l i).waiting_not_up = true ∧
            cycleIndexAt l i % 4 = 0 ∧ 0 < cycleIndexAt l i) ∧
    (∀ (s : ScanState) (p : PullRow), is_not_up p = true →
        cycleStep s p = ({ s with waiting_not_up := true }, false)) ∧
    cycleFlags scenarioA = [false, false, false, false, false, false, false, true] ∧
    (scanFrom initState scenarioA).cycle_count = 4 := by
  refine ⟨?_, ?_, by decide, by decide⟩
  · intro l i
    rw [cycleFlags, cycleFlagsFrom_get]
    simp only [scanStateAt, cycleIndexAt]
    cases hg : l.get? i with
    | none => simp
    | some p =>
      simp only [Option.map_some', Option.some.injEq]
      constructor
      · intro h
        rcases (cycleStep_flag _ p).mp h with ⟨hu, hw, hm⟩
        exact ⟨p, rfl, hu, hw, hm, Nat.succ_pos _⟩
      · rintro ⟨p', rfl, hu, hw, hm, -⟩
        exact (cycleStep_flag _ p).mpr ⟨hu, hw, hm⟩
  · intro s p h
    simp [cycleStep, h]

/-- C1 witness: a standard pull at the initial state only sets the waiting
flag and is not flagged. -/
theorem C1_cycle_rule_witness :
    cycleStep initState stdRow = ({ initState with waiting_not_up := true }, false) :=
  C1_cycle_rule.2.1 initState stdRow (by decide)

/-- C7: a standard pull never advances the counter and never flags (it only
sets the single waiting flag); the counter grows by exactly one per
featured-while-waiting pull; and if a suffix contains no featured pull at all
(in particular after a standard pull with no later featured pull, or across
consecutive standard pulls) the counter stays where it was. -/
theorem C7_scan_state :
    (∀ (s : ScanState) (p : PullRow), is_not_up p = true →
        (cycleStep s p).1.cycle_count = s.cycle_count ∧
        (cycleStep s p).1.waiting_not_up = true ∧ (cycleStep s p).2 = false) ∧
    (∀ (s : ScanState) (p : PullRow),
        (cycleStep s p).1.cycle_count =
          s.cycle_count + (if is_up p && s.waiting_not_up then 1 else 0)) ∧
    (∀ (s : ScanState) (l1 l2 : List PullRow), (∀ q ∈ l2, is_up q = false) →
        (scanFrom s (l1 ++ l2)).cycle_count = (scanFrom s l1).cycle_count) := by
  refine ⟨?_, cycleStep_count, ?_⟩
  · intro s p h
    simp [cycleStep, h]
  · intro s l1 l2 h
    rw [scanFrom_append]
    exact scanFrom_no_up l2 _ h

/-- C7 witness: two consecutive standard pulls leave the counter at 0. -/
theorem C7_scan_state_witness :
    (scanFrom initState ([] ++ [stdRow, stdRow])).cycle_count =
      (scanFrom initState []).cycle_count :=
  C7_scan_state.2.2 initState [] [stdRow, stdRow] (by decide)

/-- C8: for a rarity-5 record the two derived flags are determined by
membership of the character in `NON_UP_CHARS` and exactly one of them holds;
for any record the two flags are never both true. -/
theorem C8_flag_partition :
    (∀ p : PullRow, p.rarity = 5 →
        is_not_up p = NON_UP_CHARS.contains p.name ∧
        is_up p = !NON_UP_CHARS.contains p.name ∧
        (is_not_up p = true ↔ is_up p = false)) ∧
    (∀ p : PullRow, ¬(is_not_up p = true ∧ is_up p = true)) := by
  constructor
  · intro p h5
    have hb : (p.rarity == 5) = true := by simp [h5]
    refine ⟨by simp [is_not_up, hb], by simp [is_up, hb], ?_⟩
    simp only [is_not_up, is_up, hb, Bool.true_and]
    cases NON_UP_CHARS.contains p.name <;> simp
  · rintro p ⟨h1, h2⟩
    rw [not_up_up_false p h1] at h2
    cases h2

/-- C8 witness: the standard row has `is_not_up` true and `is_up` false. -/
theorem C8_flag_partition_witness :
    is_not_up stdRow = true ↔ is_up stdRow = false :=
  (C8_flag_partition.1 stdRow rfl).2.2

/-! ### Combined-flag lemmas -/

theorem failsafeFrom_cons5 (s : ScanState) (q : PullRow) (t : List PullRow)
    (h5 : (q.rarity == 5) = true) :
    failsafeFrom s (q :: t) = (cycleStep s q).2 :: failsafeFrom (cycleStep s q).1 t := by
  simp [failsafeFrom, h5]

theorem failsafeFrom_consN (s : ScanState) (q : PullRow) (t : List PullRow)
    (h5 : ¬(q.rarity == 5) = true) :
    failsafeFrom s (q :: t) = false :: failsafeFrom s t := by
  simp [failsafeFrom, h5]

theorem captureFrom_cons5 (s : ScanState) (q : PullRow) (t : List PullRow)
    (h5 : (q.rarity == 5) = true) :
    captureFrom s (q :: t) =
      (remark_match q.remark || (cycleStep s q).2) :: captureFrom (cycleStep s q).1 t := by
  simp [captureFrom, h5]

theorem captureFrom_consN (s : ScanState) (q : PullRow) (t : List PullRow)
    (h5 : ¬(q.rarity == 5) = true) :
    captureFrom s (q :: t) = remark_match q.remark :: captureFrom s t := by
  simp [captureFrom, h5]

theorem capture_get (df : List PullRow) :
    ∀ (s : ScanState) (i : Nat) (p : PullRow), df.get? i = some p →
      ∃ c, (failsafeFrom s df).get? i = some c ∧
        (captureFrom s df).get? i = some (remark_match p.remark || c) := by
  induction df with
  | nil => intro s i p h; simp at h
  | cons q t ih =>
    intro s i p h
    cases i with
    | zero =>
      simp only [List.get?_cons_zero, Option.some.injEq] at h
      rcases h with rfl
      by_cases h5 : (q.rarity == 5) = true
      · exact ⟨(cycleStep s q).2,
          by rw [failsafeFrom_cons5 s q t h5, List.get?_cons_zero],
          by rw [captureFrom_cons5 s q t h5, List.get?_cons_zero]⟩
      · exact ⟨false,
          by rw [failsafeFrom_consN s q t h5, List.get?_cons_zero],
          by rw [captureFrom_consN s q t h5, List.get?_cons_zero, Bool.or_false]⟩
    | succ n =>
      have h' : t.get? n = some p := by simpa using h
      by_cases h5 : (q.rarity == 5) = true
      · rcases ih (cycleStep s q).1 n p h' with ⟨c, hc1, hc2⟩
        exact ⟨c,
          by rw [failsafeFrom_cons5 s q t h5, List.get?_cons_succ]; exact hc1,
          by rw [captureFrom_cons5 s q t h5, List.get?_cons_succ]; exact hc2⟩
      · rcases ih s n p h' with ⟨c, hc1, hc2⟩
        exact ⟨c,
          by rw [failsafeFrom_consN s q t h5, List.get?_cons_succ]; exact hc1,
          by rw [captureFrom_consN s q t h5, List.get?_cons_succ]; exact hc2⟩

theorem failsafe_non5 (df : List PullRow) :
    ∀ (s : ScanState) (i : Nat) (p : PullRow), df.get? i = some p → p.rarity ≠ 5 →
      (failsafeFrom s df).get? i = some false := by
  induction df with
  | nil => intro s i p h _; simp at h
  | cons q t ih =>
    intro s i p h hr
    cases i with
    | zero =>
      simp only [List.get?_cons_zero, Option.some.injEq] at h
      rcases h with rfl
      have h5 : ¬(q.rarity == 5) = true := by simp [hr]
      rw [failsafeFrom_consN s q t h5, List.get?_cons_zero]
    | succ n =>
      have h' : t.get? n = some p := by simpa using h
      by_cases h5 : (q.rarity == 5) = true
      · rw [failsafeFrom_cons5 s q t h5, List.get?_cons_succ]
        exact ih (cycleStep s q).1 n p h' hr
      · rw [failsafeFrom_consN s q t h5, List.get?_cons_succ]
        exact ih s n p h' hr

theorem zip_get {α β : Type} (l1 : List α) :
    ∀ (l2 : List β) (i : Nat) (a : α) (b : β),
      l1.get? i = some a → l2.get? i = some b → (l1.zip l2).get? i = some (a, b) := by
  induction l1 with
  | nil => intro l2 i a b h _; simp at h
  | cons x t ih =>
    intro l2 i a b h1 h2
    cases l2 with
    | nil => simp at h2
    | cons y u =>
      cases i with
      | zero =>
        simp only [List.get?_cons_zero, Option.some.injEq] at h1 h2
        simp [List.zip_cons_cons, h1, h2]
      | succ n =>
        have h1' : t.get? n = some a := by simpa using h1
        have h2' : u.get? n = some b := by simpa using h2
        simpa [List.zip_cons_cons] using ih u n a b h1' h2'

/-- C2: the combined `is_fate_capture` flag of every record is the logical OR
of the stateless remark rule on that record's own remark text and the cycle
rule's flag; the remark rule depends only on the case-normalized remark text
(case-insensitive, independent of scan state); Scenario B's mixed-case remark
is flagged although its cycle flag is false. -/
theorem C2_remark_rule :
    (∀ (df : List PullRow) (i : Nat) (p : PullRow), df.get? i = some p →
        ∃ c, (failsafe_cycle df).get? i = some c ∧
          (is_fate_capture df).get? i = some (remark_match p.remark || c)) ∧
    (∀ r₁ r₂ : String, lowerChars r₁ = lowerChars r₂ →
        remark_match r₁ = remark_match r₂) ∧
    is_fate_capture scenarioB = [true] ∧
    failsafe_cycle scenarioB = [false] := by
  refine ⟨fun df i p h => capture_get df initState i p h, ?_, by decide, by decide⟩
  intro r₁ r₂ h
  simp [remark_match, h]

/-- C2 witness: an upper-case remark is matched exactly like its lower-case
form. -/
theorem C2_remark_rule_witness :
    remark_match "CAPTURING RADIANCE" = remark_match "capturing radiance" :=
  C2_remark_rule.2.1 "CAPTURING RADIANCE" "capturing radiance" (by decide)

/-- C10: the cycle rule's flag is only ever assigned on rarity-5 records (all
other records get `false`), while the remark rule sets the combined flag for a
record of any rarity; the concrete rarity-3 record with a matching remark is
flagged. -/
theorem C10_rule_scope :
    (∀ (df : List PullRow) (i : Nat) (p : PullRow), df.get? i = some p →
        p.rarity ≠ 5 → (failsafe_cycle df).get? i = some false) ∧
    (∀ (df : List PullRow) (i : Nat) (p : PullRow), df.get? i = some p →
        remark_match p.remark = true → (is_fate_capture df).get? i = some true) ∧
    is_fate_capture cex10 = [true] ∧
    cex10Row.rarity = 3 := by
  refine ⟨fun df i p h hr => failsafe_non5 df initState i p h hr, ?_, by decide, rfl⟩
  intro df i p h hm
  rcases capture_get df initState i p h with ⟨c, -, hc2⟩
  rw [hm] at hc2
  simpa using hc2

/-- C10 witness: the rarity-3 record's cycle flag stays false even though its
combined flag is true. -/
theorem C10_rule_scope_witness :
    (failsafe_cycle cex10).get? 0 = some false :=
  C10_rule_scope.1 cex10 0 cex10Row rfl (by decide)

/-- C9: the feature builder is a per-record transform: row `i` of the built
table is exactly `[pull_number, is_not_up, failsafe_cycle]` of record `i`
together with the combined radiance flag as the binary target and
`primogem_cost = pull_number * 160` as the continuous target. -/
theorem C9_feature_builder :
    ∀ (df : List PullRow) (i : Nat) (p : PullRow), df.get? i = some p →
      (buildFeatures df).get? i =
        some ([p.pull_number, (is_not_up p).toNat,
                ((failsafe_cycle df).getD i false).toNat],
              ((is_fate_capture df).getD i false).toNat,
              p.pull_number * 160) := by
  intro df i p h
  rcases capture_get df initState i p h with ⟨c, hc1, hc2⟩
  have hz : (df.zip ((failsafe_cycle df).zip (is_fate_capture df))).get? i =
      some (p, c, remark_match p.remark || c) :=
    zip_get df _ i p (c, remark_match p.remark || c) h
      (zip_get _ _ i c (remark_match p.remark || c) hc1 hc2)
  have hD1 : (failsafe_cycle df).getD i false = c := by
    show ((failsafeFrom initState df).get? i).getD false = c
    rw [hc1]; rfl
  have hD2 : (is_fate_capture df).getD i false = (remark_match p.remark || c) := by
    show ((captureFrom initState df).get? i).getD false = (remark_match p.remark || c)
    rw [hc2]; rfl
  rw [buildFeatures, List.get?_map, hz, hD1, hD2]
  rfl

/-- C9 witness: the single Scenario B record yields the feature row
`([1, 1, 0], 1, 160)`. -/
theorem C9_feature_builder_witness :
    (buildFeatures scenarioB).get? 0 =
      some ([1, 1, 0], 1, 160) :=
  C9_feature_builder scenarioB 0 bRow rfl

/-! ### Forecast-engine lemmas -/

theorem lastRadAux_none (l : List PullRow) :
    ∀ k : Nat, lastRadAux k l = none ↔ ∀ p ∈ l, fc_mask p = false := by
  induction l with
  | nil => intro k; simp [lastRadAux]
  | cons q t ih =>
    intro k
    simp only [lastRadAux]
    cases hr : lastRadAux (k + 1) t with
    | some j =>
      constructor
      · intro h; exact Option.noConfusion h
      · intro h
        have hn : lastRadAux (k + 1) t = none :=
          (ih (k + 1)).mpr (fun p hp => h p (List.mem_cons_of_mem q hp))
        rw [hn] at hr
        exact Option.noConfusion hr
    | none =>
      cases hq : fc_mask q with
      | true => simp [hq]
      | false =>
        simp only [hq, Bool.false_eq_true, if_false]
        constructor
        · intro _ p hp
          rcases List.mem_cons.mp hp with rfl | hp'
          · exact hq
          · exact (ih (k + 1)).mp hr p hp'
        · intro _; trivial

theorem lastRadAux_get (l : List PullRow) :
    ∀ (k j : Nat), lastRadAux k l = some j →
      k ≤ j ∧ ∃ p, l.get? (j - k) = some p ∧ fc_mask p = true := by
  induction l with
  | nil => intro k j h; exact Option.noConfusion h
  | cons q t ih =>
    intro k j h
    cases hr : lastRadAux (k + 1) t with
    | some j' =>
      simp only [lastRadAux, hr, Option.some.injEq] at h
      subst h
      rcases ih (k + 1) j' hr with ⟨hk, p, hp, hf⟩
      refine ⟨Nat.le_of_succ_le hk, p, ?_, hf⟩
      have hj : j' - k = (j' - (k + 1)) + 1 := by omega
      rw [hj, List.get?_cons_succ]
      exact hp
    | none =>
      cases hq : fc_mask q with
      | true =>
        simp only [lastRadAux, hr, hq, if_true, Option.some.injEq] at h
        subst h
        exact ⟨Nat.le_refl k, q, by simp, hq⟩
      | false =>
        simp [lastRadAux, hr, hq] at h

theorem lastRadAux_max (l : List PullRow) :
    ∀ (k j : Nat), lastRadAux k l = some j →
      ∀ (m : Nat) (p : PullRow), l.get? m = some p → fc_mask p = true → k + m ≤ j := by
  induction l with
  | nil => intro k j h; exact Option.noConfusion h
  | cons q t ih =>
    intro k j h m p hm hf
    cases hr : lastRadAux (k + 1) t with
    | some j' =>
      simp only [lastRadAux, hr, Option.some.injEq] at h
      subst h
      cases m with
      | zero =>
        have := (lastRadAux_get t (k + 1) j' hr).1
        omega
      | succ n =>
        have hm' : t.get? n = some p := by simpa using hm
        have := ih (k + 1) j' hr n p hm' hf
        omega
    | none =>
      cases hq : fc_mask q with
      | false => simp [lastRadAux, hr, hq] at h
      | true =>
        simp only [lastRadAux, hr, hq, if_true, Option.some.injEq] at h
        subst h
        cases m with
        | zero => omega
        | succ n =>
          have hm' : t.get? n = some p := by simpa using hm
          have hmem : p ∈ t := List.get?_mem hm'
          have hfalse : fc_mask p = false := (lastRadAux_none t (k + 1)).mp hr p hmem
          rw [hf] at hfalse
          exact Bool.noConfusion hfalse

theorem forecastMain_ok (df : List PullRow) (r : ForecastResult)
    (h : forecastMain df = Except.ok r) :
    ∃ u fb rec, pickUp (five_star df) = Except.ok (u, fb, rec) ∧
      finishForecast df u fb rec = Except.ok r := by
  unfold forecastMain at h
  cases hp : pickUp (five_star df) with
  | error e => rw [hp] at h; exact Except.noConfusion h
  | ok t =>
    obtain ⟨u, fb, rec⟩ := t
    rw [hp] at h
    exact ⟨u, fb, rec, rfl, h⟩

theorem pickUp_ok (d5 : List PullRow) (u : String) (fb : Bool) (rec : List PullRow)
    (h : pickUp d5 = Except.ok (u, fb, rec)) :
    (lastRad d5 = none ∧ ∃ lastP, d5.getLast? = some lastP ∧
        u = lastP.name ∧ fb = true ∧ rec = d5) ∨
    (∃ i evP, lastRad d5 = some i ∧ d5.get? i = some evP ∧
        u = evP.name ∧ fb = false ∧ rec = d5.drop (i + 1)) := by
  unfold pickUp at h
  cases hr : lastRad d5 with
  | none =>
    rw [hr] at h
    cases hL : d5.getLast? with
    | none => rw [hL] at h; exact Except.noConfusion h
    | some lastP =>
      rw [hL] at h
      have h' := Except.ok.inj h
      simp only [Prod.mk.injEq] at h'
      exact Or.inl ⟨rfl, lastP, rfl, h'.1.symm, h'.2.1.symm, h'.2.2.symm⟩
  | some i =>
    rw [hr] at h
    have h2 : (match d5.get? i with
        | none => (Except.error ForecastError.indexError :
            Except ForecastError (String × Bool × List PullRow))
        | some evP => Except.ok (evP.name, false, d5.drop (i + 1))) =
        Except.ok (u, fb, rec) := h
    cases hg : d5.get? i with
    | none => rw [hg] at h2; exact Except.noConfusion h2
    | some evP =>
      rw [hg] at h2
      have h' := Except.ok.inj h2
      simp only [Prod.mk.injEq] at h'
      exact Or.inr ⟨i, evP, rfl, hg, h'.1.symm, h'.2.1.symm, h'.2.2.symm⟩

theorem finishForecast_ok (df : List PullRow) (u : String) (fb : Bool)
    (rec : List PullRow) (r : ForecastResult)
    (h : finishForecast df u fb rec = Except.ok r) :
    ∃ lastRow, df.getLast? = some lastRow ∧
      r = ⟨u, fb, consec_non_up u rec,
           if 3 ≤ consec_non_up u rec then (1 : ℚ) else base_chance,
           if 3 ≤ consec_non_up u rec then true else false,
           lastRow.within_pity,
           max (90 - (lastRow.within_pity : ℤ)) 0,
           max (90 - (lastRow.within_pity : ℤ)) 0 * 160⟩ := by
  unfold finishForecast at h
  cases hL : df.getLast? with
  | none => rw [hL] at h; exact Except.noConfusion h
  | some lastRow =>
    rw [hL] at h
    exact ⟨lastRow, rfl, (Except.ok.inj h).symm⟩

/-- C3 counterexample: the detector's remark rule flags the pull whose remark
is `capturing radiance`, yet the Forecast Engine — which only checks the
different phrase `capture radiance` and never consults the cycle rule — runs
its fallback branch anyway, refuting "falls back if and only if no flagged
event exists". -/
theorem C3_counterexample :
    is_fate_capture cex3 = [true] ∧
    forecastMain cex3 =
      Except.ok ⟨"Furina", true, 0, base_chance, false, 80, 10, 1600⟩ :=
  ⟨rfl, rfl⟩

/-- C3 amended: the Forecast Engine determines the active featured character
from the most recent pull whose remark contains, case-insensitively, the
phrase `capture radiance` (it does not consult the detector rules); it runs
the fallback — surfaced through the printed notice — exactly when no such
remark match exists, and then uses the most recent rarity-5 pull's character. -/
theorem C3_amended :
    ∀ (df : List PullRow) (r : ForecastResult), forecastMain df = Except.ok r →
      (r.fallback = true ↔ ∀ p ∈ five_star df, fc_mask p = false) ∧
      (r.fallback = true →
        ((five_star df).getLast?).map PullRow.name = some r.up_name) ∧
      (∀ i, lastRad (five_star df) = some i →
        r.fallback = false ∧
        ((five_star df).get? i).map PullRow.name = some r.up_name ∧
        ∀ (m : Nat) (p : PullRow), (five_star df).get? m = some p →
          fc_mask p = true → m ≤ i) := by
  intro df r h
  rcases forecastMain_ok df r h with ⟨u, fb, rec, hp, hf⟩
  rcases finishForecast_ok df u fb rec r hf with ⟨lastRow, hL, rfl⟩
  rcases pickUp_ok (five_star df) u fb rec hp with
    ⟨hnone, lastP, hgl, hu, hfb, hrec⟩ | ⟨i, evP, hsome, hget, hu, hfb, hrec⟩
  · subst hu hfb
    refine ⟨?_, ?_, ?_⟩
    · simp only [true_iff]
      exact (lastRadAux_none (five_star df) 0).mp hnone
    · intro _
      rw [hgl]
      rfl
    · intro i hsome
      rw [hnone] at hsome
      exact Option.noConfusion hsome
  · subst hu hfb
    refine ⟨?_, ?_, ?_⟩
    · constructor
      · intro h'
        exact Bool.noConfusion h'
      · intro hall
        have hn : lastRad (five_star df) = none :=
          (lastRadAux_none (five_star df) 0).mpr hall
        rw [hn] at hsome
        exact Option.noConfusion hsome
    · intro h'
      exact Bool.noConfusion h'
    · intro i' hsome'
      have hi : i = i' := Option.some.inj (hsome.symm.trans hsome')
      subst hi
      refine ⟨rfl, ?_, ?_⟩
      · rw [hget]; rfl
      · intro m p hm hfm
        have := lastRadAux_max (five_star df) 0 i hsome m p hm hfm
        omega

/-- C3 amended witness: on the boundary scenario the engine locates the remark
match at index 0 and uses that pull's character without falling back. -/
theorem C3_amended_witness :
    rF.fallback = false ∧
    ((five_star scenarioF).get? 0).map PullRow.name = some rF.up_name :=
  ⟨((C3_amended scenarioF rF rfl).2.2 0 rfl).1,
   ((C3_amended scenarioF rF rfl).2.2 0 rfl).2.1⟩

/-- C4: whenever the engine produces a forecast, a streak of at least 3 gives
probability exactly 1 and the guarantee flag, any smaller streak gives the
base constant 0.00018 and no guarantee; the streak counter equals the length
of the leading run of pulls whose character differs from the active featured
character; Scenario D (streak 3) and Scenario E (streak 2) behave accordingly. -/
theorem C4_probability_policy :
    (∀ (df : List PullRow) (r : ForecastResult), forecastMain df = Except.ok r →
        (3 ≤ r.consec → r.radiance_chance = 1 ∧ r.guaranteed = true) ∧
        (r.consec < 3 → r.radiance_chance = base_chance ∧ r.guaranteed = false)) ∧
    (∀ (up : String) (l : List PullRow),
        consec_non_up up l = (l.takeWhile (fun p => p.name != up)).length) ∧
    forecastMain scenarioD = Except.ok rD ∧
    forecastMain scenarioE = Except.ok rE := by
  refine ⟨?_, ?_, rfl, rfl⟩
  · intro df r h
    rcases forecastMain_ok df r h with ⟨u, fb, rec, hp, hf⟩
    rcases finishForecast_ok df u fb rec r hf with ⟨lastRow, hL, rfl⟩
    constructor
    · intro h3
      have h3' : 3 ≤ consec_non_up u rec := h3
      refine ⟨?_, ?_⟩
      · show (if 3 ≤ consec_non_up u rec then (1 : ℚ) else base_chance) = 1
        rw [if_pos h3']
      · show (if 3 ≤ consec_non_up u rec then true else false) = true
        rw [if_pos h3']
    · intro h3
      have h3' : ¬ 3 ≤ consec_non_up u rec := Nat.not_le.mpr h3
      refine ⟨?_, ?_⟩
      · show (if 3 ≤ consec_non_up u rec then (1 : ℚ) else base_chance) = base_chance
        rw [if_neg h3']
      · show (if 3 ≤ consec_non_up u rec then true else false) = false
        rw [if_neg h3']
  · intro up l
    induction l with
    | nil => rfl
    | cons p t ih =>
      by_cases hp : (p.name != up) = true
      · simp [consec_non_up, hp, List.takeWhile_cons, ih]
      · simp [consec_non_up, hp, List.takeWhile_cons]

/-- C4 witness: Scenario D yields probability 1 with the guarantee, Scenario E
yields the base constant without it. -/
theorem C4_probability_policy_witness :
    (rD.radiance_chance = 1 ∧ rD.guaranteed = true) ∧
    (rE.radiance_chance = base_chance ∧ rE.guaranteed = false) :=
  ⟨(C4_probability_policy.1 scenarioD rD rfl).1 (by decide),
   (C4_probability_policy.1 scenarioE rE rfl).2 (by decide)⟩

/-- C5 counterexample: on a log with no rarity-5 rows the engine's outcome is
the index error raised by the fallback's `.iloc[-1]` on the empty frame, which
is not the spec's distinct `NoFiveStarData` report (no default forecast is
produced either). -/
theorem C5_counterexample :
    five_star cex5 = [] ∧
    forecastMain cex5 = Except.error ForecastError.indexError ∧
    ForecastError.indexError ≠ ForecastError.noFiveStarData :=
  ⟨rfl, rfl, by decide⟩

/-- C5 amended: if the rarity-5 subsequence is empty the engine produces no
forecast — it aborts with the fallback branch's index error rather than
reporting a designed NoFiveStarData outcome — and a forecast is produced only
when at least one rarity-5 pull is present. -/
theorem C5_amended :
    ∀ df : List PullRow,
      (five_star df = [] →
        forecastMain df = Except.error ForecastError.indexError) ∧
      (∀ r, forecastMain df = Except.ok r → five_star df ≠ []) := by
  intro df
  constructor
  · intro h
    unfold forecastMain
    rw [h]
    rfl
  · intro r hr hempty
    have h1 : forecastMain df = Except.error ForecastError.indexError := by
      unfold forecastMain
      rw [hempty]
      rfl
    rw [h1] at hr
    exact Except.noConfusion hr

/-- C5 amended witness: the rarity-3-only log produces the index error. -/
theorem C5_amended_witness :
    forecastMain cex5 = Except.error ForecastError.indexError :=
  (C5_amended cex5).1 rfl

/-- C6: every produced forecast satisfies
`pulls_to_next5 = max 0 (90 - current_pity)` and
`gems_needed = pulls_to_next5 * 160`; at the boundary where the current pity
equals the ceiling 90 both quantities are 0. -/
theorem C6_resource_projection :
    (∀ (df : List PullRow) (r : ForecastResult), forecastMain df = Except.ok r →
        r.pulls_to_next5 = max 0 (90 - (r.current_pity : ℤ)) ∧
        r.gems_needed = r.pulls_to_next5 * 160) ∧
    forecastMain scenarioF = Except.ok rF ∧
    rF.pulls_to_next5 = 0 ∧ rF.gems_needed = 0 := by
  refine ⟨?_, rfl, rfl, rfl⟩
  intro df r h
  rcases forecastMain_ok df r h with ⟨u, fb, rec, hp, hf⟩
  rcases finishForecast_ok df u fb rec r hf with ⟨lastRow, hL, rfl⟩
  exact ⟨max_comm _ _, rfl⟩

/-- C6 witness: the boundary scenario's forecast satisfies both equations. -/
theorem C6_resource_projection_witness :
    rF.pulls_to_next5 = max 0 (90 - (rF.current_pity : ℤ)) ∧
    rF.gems_needed = rF.pulls_to_next5 * 160 :=
  C6_resource_projection.1 scenarioF rF rfl
